import Mathlib

/-!
Verification of the resolver loop of the juju uniter subsystem.

The definitions below are a shallow embedding of the Go code in
`worker/uniter/resolver` (file `manifold.go` of the source pack):
the `updateCharmDir` guard derivation and the `Loop` control loop.
External collaborators that the loop only calls through interfaces
(Resolver, Executor, remote-state Watcher, fortress Guard, idle
callback, the select scheduler) are modelled as oracles collected in
an `Env` record; the loop itself is a fuel-indexed interpreter that
records every observable interaction in a trace of `Action`s.
-/

namespace JujuResolver

/-- Kinds of hooks (`hooks.Kind` from the charm package); only
`UpgradeCharm` is distinguished by the code under study, all other
kinds are collapsed into `other`. -/
inductive HookKind
  | upgradeCharm
  | other (n : Nat)
deriving DecidableEq, Repr

/-- The hook information recorded in operation state (`hook.Info`):
the loop code only reads its `Kind` field. -/
structure HookInfo where
  kind : HookKind
deriving DecidableEq, Repr

/-- `operation.Kind`: the operation category recorded in local state. -/
inductive OpKind
  | noneK
  | install
  | upgrade
  | runHook
  | runAction
  | continueK
deriving DecidableEq, Repr

/-- `operation.Step`: lifecycle position within a Kind. -/
inductive OpStep
  | queued
  | pending
  | done
deriving DecidableEq, Repr

/-- `operation.State`, restricted to the fields read by the resolver
loop and `updateCharmDir`: Kind, Step, Hook (a nil-able pointer,
modelled as `Option`), Started and Stopped. -/
structure OpState where
  kind : OpKind
  step : OpStep
  hook : Option HookInfo
  started : Bool
  stopped : Bool
deriving DecidableEq, Repr

/-- Go error values relevant to the loop.  `errWaiting` and
`errNoOperation` are the resolver package sentinels (their defining
file is outside the source pack; they are distinct `errors.New`
values, which is all the loop relies on), `errDoNotProceed` and
`errLoopAborted` are defined in the studied file, `other` stands for
any further error, and `traced e` is the wrapper produced by
`errors.Trace(e)`, whose cause is the cause of `e`. -/
inductive ErrVal
  | errWaiting
  | errNoOperation
  | errDoNotProceed
  | errLoopAborted
  | other (n : Nat)
  | traced (e : ErrVal)
deriving DecidableEq, Repr

/-- A Go `error` result: `none` is the nil error. -/
abbrev GoError := Option ErrVal

/-- `errors.Cause` on a non-nil error value: strips all `Trace`
wrappers. -/
def ErrVal.cause : ErrVal → ErrVal
  | .traced e => ErrVal.cause e
  | .errWaiting => .errWaiting
  | .errNoOperation => .errNoOperation
  | .errDoNotProceed => .errDoNotProceed
  | .errLoopAborted => .errLoopAborted
  | .other n => .other n

/-- `errors.Cause` lifted to nil-able errors: `errors.Cause(nil)` is
nil. -/
def goCause : GoError → GoError
  | Option.none => Option.none
  | Option.some e => Option.some e.cause

/-- `errors.Trace` lifted to nil-able errors: `errors.Trace(nil)` is
nil. -/
def goTrace : GoError → GoError
  | Option.none => Option.none
  | Option.some e => Option.some (ErrVal.traced e)

/-- Dereference of the `opState.Hook.Kind` pointer access: faults on a
nil pointer.  Used to show the guard derivation's short-circuit
evaluation never performs the faulting access. -/
def derefHookKind : Option HookInfo → Except String HookKind
  | Option.some h => Except.ok h.kind
  | Option.none => Except.error "nil pointer dereference"

/-- The `changing` computation of `updateCharmDir`, with Go's
short-circuit evaluation made explicit: the hook pointer is
dereferenced only after `opState.Kind == operation.RunHook &&
opState.Hook != nil` has held. -/
def charmChanging (opState : OpState) : Except String Bool :=
  if opState.kind = OpKind.install ∨ opState.kind = OpKind.upgrade then
    Except.ok true
  else if opState.kind = OpKind.runHook ∧ opState.hook.isSome then do
    let k ← derefHookKind opState.hook
    Except.ok (decide (k = HookKind.upgradeCharm))
  else
    Except.ok false

/-- The two fortress guard operations the loop may invoke. -/
inductive GuardCall
  | unlock
  | lockdown
deriving DecidableEq, Repr

/-- `updateCharmDir` as translated from the source: computes
`changing`, then `available = Started && !Stopped && !changing`, and
selects `guard.Unlock()` when available and `guard.Lockdown(abort)`
otherwise.  The `Except` layer carries the potential nil-pointer
fault of the hook access. -/
def updateCharmDirCall (opState : OpState) : Except String GuardCall := do
  let changing ← charmChanging opState
  let available := opState.started && !opState.stopped && !changing
  if available then
    Except.ok GuardCall.unlock
  else
    Except.ok GuardCall.lockdown

/-- Total form of the `changing` computation (the nested match is the
value Go computes; totality relative to `charmChanging` is proved in
`charmChanging_ok`). -/
def charmChangingB (opState : OpState) : Bool :=
  if opState.kind = OpKind.install ∨ opState.kind = OpKind.upgrade then
    true
  else if opState.kind = OpKind.runHook then
    match opState.hook with
    | Option.some h => decide (h.kind = HookKind.upgradeCharm)
    | Option.none => false
  else
    false

/-- Total form of the availability predicate. -/
def charmAvailable (s : OpState) : Bool :=
  s.started && !s.stopped && !charmChangingB s

/-- Total form of the guard call selected by `updateCharmDir`. -/
def guardCallOf (s : OpState) : GuardCall :=
  if charmAvailable s then GuardCall.unlock else GuardCall.lockdown

/-- Whether an optional hook is an upgrade-charm hook; an absent hook
is not. -/
def hookIsUpgrade : Option HookInfo → Bool
  | Option.some h => decide (h.kind = HookKind.upgradeCharm)
  | Option.none => false

/-- The spec's derivation formula, written from the spec's words:
`changing = (Kind in \x7bInstall, Upgrade\x7d) || (Kind = RunHook &&
Hook.IsUpgradeCharmHook)`. -/
def specChanging (s : OpState) : Bool :=
  (decide (s.kind = OpKind.install) || decide (s.kind = OpKind.upgrade)) ||
    (decide (s.kind = OpKind.runHook) && hookIsUpgrade s.hook)

/-- The spec's availability formula:
`available = Started && !Stopped && !changing`. -/
def specAvailable (s : OpState) : Bool :=
  s.started && !s.stopped && !specChanging s

/-- An Operation handed back by the Resolver; opaque to the loop, so
only an identity is modelled. -/
structure Operation where
  opId : Nat
deriving DecidableEq, Repr

/-- The `(op, err)` pair returned by `Resolver.NextOp`. -/
structure NextOpRet where
  op : Operation
  err : GoError
deriving DecidableEq, Repr

/-- Outcome of one `Executor.Run` call, as observed by the loop:
the returned error, the local state the executor persisted, whether
the per-operation forwarding goroutine consumed a remote-state change
notification during the run (in which case it posts a best-effort
wakeup on `fire`), and by how much the remote-state version advanced
during the run. -/
structure RunOut where
  err : GoError
  newLocal : OpState
  notify : Bool
  remoteInc : Nat
deriving DecidableEq, Repr

/-- The three cases of the loop's blocking select. -/
inductive Branch
  | abort
  | change
  | fire
deriving DecidableEq, Repr

/-- Oracle for every external collaborator of the loop.  Each oracle
is indexed by its own call counter so that successive calls may
behave differently.  `pick` is the scheduler's choice at the blocking
select: Go chooses uniformly among ready cases, so the pick is
adversarial and is honoured exactly when the picked branch is ready. -/
structure Env where
  local0 : OpState
  remote0 : Nat
  nextOp : Nat → OpState → Nat → NextOpRet
  runOp : Nat → Operation → RunOut
  onIdle : Option (Nat → GoError)
  unlockErr : Nat → GoError
  lockdownErr : Nat → GoError
  abortSet : Nat → Bool
  changeReady : Nat → Bool
  pick : Nat → Branch

/-- Mutable state threaded through the interpreted loop: the
executor's local state, the watcher's remote-state version, the
single-slot `fire` channel (a capacity-one channel holding at most
one wakeup token), and the call counters of the oracles. -/
structure LoopSt where
  localSt : OpState
  remote : Nat
  fire : Bool
  ni : Nat
  ri : Nat
  gi : Nat
  ii : Nat
  si : Nat
deriving DecidableEq, Repr

/-- Observable interactions of the loop, in the order they happen. -/
inductive Action
  | snap (v : Nat)
  | readState (s : OpState)
  | guardAct (c : GuardCall) (r : GoError)
  | decideOp (i : Nat) (r : NextOpRet)
  | runAct (i : Nat) (o : Operation) (r : GoError) (notified : Bool)
  | idleAct (r : GoError)
  | waitTaken (b : Branch)
deriving DecidableEq, Repr

/-- Result of the guard call selected by `updateCharmDir`, drawn from
the environment. -/
def guardResult (env : Env) (gi : Nat) (c : GuardCall) : GoError :=
  match c with
  | GuardCall.unlock => env.unlockErr gi
  | GuardCall.lockdown => env.lockdownErr gi

/-- State update applied by a successful `Executor.Run`: the executor
persisted `newLocal`, the remote version advanced, and the forwarding
goroutine set `fire` via a non-blocking send if it consumed a change
notification (a full slot is left full). -/
def runUpdateSt (st : LoopSt) (ro : RunOut) : LoopSt :=
  { st with
    localSt := ro.newLocal
    remote := st.remote + ro.remoteInc
    fire := st.fire || ro.notify
    ri := st.ri + 1 }

/-- Counter bump after a guard call inside the inner loop. -/
def afterGuardSt (st : LoopSt) : LoopSt :=
  { st with gi := st.gi + 1 }

/-- Counter bump after a `NextOp` call. -/
def afterDecideSt (st : LoopSt) : LoopSt :=
  { st with ni := st.ni + 1 }

/-- Result of the inner `for err == nil` loop: `fatal` is a `return`
executed inside the inner loop (run failure or guard failure, already
`errors.Trace`d), `exitRes` is the normal exit carrying the non-nil
`NextOp` error to the dispatch switch, `fuel` is interpreter fuel
exhaustion. -/
inductive InnerRes
  | fatal (e : GoError)
  | exitRes (e : GoError) (st : LoopSt)
  | fuel
deriving DecidableEq, Repr

/-- The inner `for err == nil` loop of `Loop`: run the operation
(forwarding goroutine effects folded into `RunOut`), on success
re-snapshot remote state, re-read local state, recompute and apply
the charm directory guard, then ask `NextOp` again with the refreshed
state. -/
def innerLoop (env : Env) : Nat → LoopSt → NextOpRet → List Action × InnerRes
  | 0, _, _ => ([], InnerRes.fuel)
  | Nat.succ n, st, r =>
    match r.err with
    | Option.some e => ([], InnerRes.exitRes (Option.some e) st)
    | Option.none =>
      let ro := env.runOp st.ri r.op
      match ro.err with
      | Option.some e =>
        ([Action.runAct st.ri r.op (Option.some e) ro.notify],
          InnerRes.fatal (goTrace (Option.some e)))
      | Option.none =>
        let st1 := runUpdateSt st ro
        let c := guardCallOf st1.localSt
        let ge := guardResult env st1.gi c
        let pre := [Action.runAct st.ri r.op Option.none ro.notify,
                    Action.snap st1.remote, Action.readState st1.localSt,
                    Action.guardAct c ge]
        match ge with
        | Option.some g =>
          (pre, InnerRes.fatal (goTrace (Option.some g)))
        | Option.none =>
          let st2 := afterGuardSt st1
          let r2 := env.nextOp st2.ni st2.localSt st2.remote
          let rest := innerLoop env n (afterDecideSt st2) r2
          (pre ++ Action.decideOp st2.ni r2 :: rest.1, rest.2)

/-- Result of the dispatch switch on `errors.Cause(err)`. -/
inductive DispatchRes
  | proceed
  | fatal (e : GoError)
deriving DecidableEq, Repr

/-- Full outcome of the dispatch switch: the actions it performs, a
flag recording whether the idle callback was invoked, and whether the
loop proceeds to the blocking select or returns. -/
structure DispatchOut where
  acts : List Action
  invoked : Bool
  res : DispatchRes
deriving DecidableEq, Repr

/-- The `switch errors.Cause(err)` at the bottom of the outer loop.
`idr` is `none` when `cfg.OnIdle` is nil and `some ie` when the idle
callback is configured and would return `ie` if invoked now.  A nil
cause and `ErrWaiting` fall through; `ErrNoOperation` invokes the
idle callback, whose non-nil error is returned traced; every other
cause is returned as-is. -/
def dispatchStep (idr : Option GoError) (e : GoError) : DispatchOut :=
  match goCause e with
  | Option.none => ⟨[], false, DispatchRes.proceed⟩
  | Option.some ErrVal.errWaiting => ⟨[], false, DispatchRes.proceed⟩
  | Option.some ErrVal.errNoOperation =>
    match idr with
    | Option.some ie =>
      ⟨[Action.idleAct ie], true,
        match ie with
        | Option.none => DispatchRes.proceed
        | Option.some ie2 => DispatchRes.fatal (goTrace (Option.some ie2))⟩
    | Option.none => ⟨[], false, DispatchRes.proceed⟩
  | Option.some _ => ⟨[], false, DispatchRes.fatal e⟩

/-- What the configured idle callback would return at its next
invocation, `none` when no callback is configured. -/
def idleResult (env : Env) (ii : Nat) : Option GoError :=
  match env.onIdle with
  | Option.some f => Option.some (f ii)
  | Option.none => Option.none

/-- Loop state after the dispatch switch: the idle-callback counter
advances exactly when the callback was invoked. -/
def postDispatchSt (env : Env) (st2 : LoopSt) (e : GoError) : LoopSt :=
  if (dispatchStep (idleResult env st2.ii) e).invoked then
    { st2 with ii := st2.ii + 1 }
  else
    st2

/-- Readiness of each select case: the abort channel, the watcher's
change-notification channel, and the single-slot `fire` channel. -/
def selectReady (env : Env) (st : LoopSt) (b : Branch) : Bool :=
  match b with
  | Branch.abort => env.abortSet st.si
  | Branch.change => env.changeReady st.si
  | Branch.fire => st.fire

/-- The blocking select: the scheduler's pick is honoured when ready
(Go chooses among ready cases only), otherwise any ready case is
taken; `none` when no case is ready, i.e. the loop blocks. -/
def selectPick (env : Env) (st : LoopSt) : Option Branch :=
  if selectReady env st (env.pick st.si) then Option.some (env.pick st.si)
  else if selectReady env st Branch.abort then Option.some Branch.abort
  else if selectReady env st Branch.change then Option.some Branch.change
  else if selectReady env st Branch.fire then Option.some Branch.fire
  else Option.none

/-- The `NextOp` call at the top of an outer iteration, fed the
current remote snapshot and the executor's current state. -/
def topDecide (env : Env) (st : LoopSt) : NextOpRet :=
  env.nextOp st.ni st.localSt st.remote

/-- Actions of the top of an outer iteration: snapshot remote state,
read local state, ask the resolver. -/
def topActs (env : Env) (st : LoopSt) : List Action :=
  [Action.snap st.remote, Action.readState st.localSt,
   Action.decideOp st.ni (topDecide env st)]

/-- Result of one outer iteration. -/
inductive BodyRes
  | ret (e : GoError)
  | blocked
  | continueSt (st : LoopSt)
  | fuel
deriving DecidableEq, Repr

/-- One iteration of the outer `for` loop of `Loop`: snapshot, read
state, `NextOp`, the inner loop, the dispatch switch, then the
blocking select on abort / change notification / `fire`.  Taking the
abort case returns `ErrLoopAborted`; taking the change case consumes
the notification; taking the `fire` case drains the wakeup slot. -/
def outerBody (env : Env) (n : Nat) (st : LoopSt) : List Action × BodyRes :=
  match innerLoop env n (afterDecideSt st) (topDecide env st) with
  | (t, InnerRes.fuel) => (topActs env st ++ t, BodyRes.fuel)
  | (t, InnerRes.fatal e) => (topActs env st ++ t, BodyRes.ret e)
  | (t, InnerRes.exitRes e st2) =>
    let dout := dispatchStep (idleResult env st2.ii) e
    let st3 := postDispatchSt env st2 e
    match dout.res with
    | DispatchRes.fatal fe => (topActs env st ++ t ++ dout.acts, BodyRes.ret fe)
    | DispatchRes.proceed =>
      match selectPick env st3 with
      | Option.none => (topActs env st ++ t ++ dout.acts, BodyRes.blocked)
      | Option.some Branch.abort =>
        (topActs env st ++ t ++ dout.acts ++ [Action.waitTaken Branch.abort],
          BodyRes.ret (Option.some ErrVal.errLoopAborted))
      | Option.some Branch.change =>
        (topActs env st ++ t ++ dout.acts ++ [Action.waitTaken Branch.change],
          BodyRes.continueSt { st3 with si := st3.si + 1 })
      | Option.some Branch.fire =>
        (topActs env st ++ t ++ dout.acts ++ [Action.waitTaken Branch.fire],
          BodyRes.continueSt { st3 with si := st3.si + 1, fire := false })

/-- Final result of `Loop`. -/
inductive LoopRes
  | ret (e : GoError)
  | blocked
  | fuel
deriving DecidableEq, Repr

/-- The outer `for` loop, iterated on fuel. -/
def outerLoop (env : Env) : Nat → LoopSt → List Action × LoopRes
  | 0, _ => ([], LoopRes.fuel)
  | Nat.succ n, st =>
    match outerBody env n st with
    | (t, BodyRes.ret e) => (t, LoopRes.ret e)
    | (t, BodyRes.blocked) => (t, LoopRes.blocked)
    | (t, BodyRes.fuel) => (t, LoopRes.fuel)
    | (t, BodyRes.continueSt st2) =>
      let rest := outerLoop env n st2
      (t ++ rest.1, rest.2)

/-- Loop state at entry of the outer loop: the executor's startup
state, the initial remote version, an empty `fire` slot, and the
guard counter already past the initial synchronization call. -/
def initLoopSt (env : Env) : LoopSt :=
  { localSt := env.local0
    remote := env.remote0
    fire := false
    ni := 0
    ri := 0
    gi := 1
    ii := 0
    si := 0 }

/-- `Loop`: synchronize the charm directory guard once from the
executor's startup state (a failure is returned traced, before any
decision), then run the outer loop. -/
def Loop (env : Env) (fuel : Nat) : List Action × LoopRes :=
  let s0 := env.local0
  let c := guardCallOf s0
  let ge := guardResult env 0 c
  let pre := [Action.readState s0, Action.guardAct c ge]
  match ge with
  | Option.some g => (pre, LoopRes.ret (goTrace (Option.some g)))
  | Option.none =>
    let rest := outerLoop env fuel (initLoopSt env)
    (pre ++ rest.1, rest.2)

/-- The refreshed `NextOp` call made after a successful run and guard
update: index, local state and remote version are those of the state
reached after the run and the guard counter bump. -/
def postGuardDecide (env : Env) (st : LoopSt) (ro : RunOut) : NextOpRet :=
  env.nextOp (afterGuardSt (runUpdateSt st ro)).ni
    (runUpdateSt st ro).localSt (runUpdateSt st ro).remote

/-! ## Concrete fixtures used by witnesses and counterexamples -/

/-- A local state recording an install in progress. -/
def exInstallSt : OpState :=
  ⟨OpKind.install, OpStep.pending, Option.none, true, false⟩

/-- A started, not stopped local state running a non-upgrade hook. -/
def exRunHookSt : OpState :=
  ⟨OpKind.runHook, OpStep.done, Option.some ⟨HookKind.other 0⟩, true, false⟩

/-- A started, not stopped RunHook state with no hook recorded. -/
def exNilHookSt : OpState :=
  ⟨OpKind.runHook, OpStep.queued, Option.none, true, false⟩

/-- Environment whose resolver immediately answers `ErrDoNotProceed`. -/
def envStop : Env :=
  { local0 := exRunHookSt
    remote0 := 0
    nextOp := fun _ _ _ => ⟨⟨0⟩, Option.some ErrVal.errDoNotProceed⟩
    runOp := fun _ _ => ⟨Option.none, exRunHookSt, false, 0⟩
    onIdle := Option.none
    unlockErr := fun _ => Option.none
    lockdownErr := fun _ => Option.none
    abortSet := fun _ => false
    changeReady := fun _ => false
    pick := fun _ => Branch.abort }

/-- Environment with the abort signal permanently set, a change
notification permanently pending, a scheduler that picks the change
case, and a resolver that yields an operation on its second call. -/
def envC3 : Env :=
  { local0 := exRunHookSt
    remote0 := 0
    nextOp := fun i _ _ =>
      if i = 1 then ⟨⟨1⟩, Option.none⟩
      else ⟨⟨0⟩, Option.some ErrVal.errNoOperation⟩
    runOp := fun _ _ => ⟨Option.none, exRunHookSt, false, 0⟩
    onIdle := Option.none
    unlockErr := fun _ => Option.none
    lockdownErr := fun _ => Option.none
    abortSet := fun _ => true
    changeReady := fun _ => true
    pick := fun _ => Branch.change }

/-- Environment whose executor fails every run. -/
def envRunFail : Env :=
  { local0 := exRunHookSt
    remote0 := 0
    nextOp := fun _ _ _ => ⟨⟨5⟩, Option.none⟩
    runOp := fun _ _ => ⟨Option.some (ErrVal.other 3), exRunHookSt, true, 0⟩
    onIdle := Option.none
    unlockErr := fun _ => Option.none
    lockdownErr := fun _ => Option.none
    abortSet := fun _ => false
    changeReady := fun _ => false
    pick := fun _ => Branch.abort }

/-- Environment with one successful run during which a change
notification is consumed while the remote version advances. -/
def envNotify : Env :=
  { local0 := exRunHookSt
    remote0 := 4
    nextOp := fun i _ _ =>
      if i = 0 then ⟨⟨2⟩, Option.none⟩
      else ⟨⟨0⟩, Option.some ErrVal.errNoOperation⟩
    runOp := fun _ _ => ⟨Option.none, exRunHookSt, true, 3⟩
    onIdle := Option.none
    unlockErr := fun _ => Option.none
    lockdownErr := fun _ => Option.none
    abortSet := fun _ => false
    changeReady := fun _ => false
    pick := fun _ => Branch.fire }

/-- Environment whose guard fails the initial lockdown, starting from
an install-in-progress state. -/
def envGuardFail : Env :=
  { local0 := exInstallSt
    remote0 := 0
    nextOp := fun _ _ _ => ⟨⟨0⟩, Option.some ErrVal.errNoOperation⟩
    runOp := fun _ _ => ⟨Option.none, exInstallSt, false, 0⟩
    onIdle := Option.none
    unlockErr := fun _ => Option.none
    lockdownErr := fun _ => Option.some (ErrVal.other 7)
    abortSet := fun _ => false
    changeReady := fun _ => false
    pick := fun _ => Branch.abort }

/-- Environment with a configured idle callback that succeeds. -/
def envIdle : Env :=
  { local0 := exRunHookSt
    remote0 := 0
    nextOp := fun _ _ _ => ⟨⟨0⟩, Option.some ErrVal.errNoOperation⟩
    runOp := fun _ _ => ⟨Option.none, exRunHookSt, false, 0⟩
    onIdle := Option.some (fun _ => Option.none)
    unlockErr := fun _ => Option.none
    lockdownErr := fun _ => Option.none
    abortSet := fun _ => true
    changeReady := fun _ => false
    pick := fun _ => Branch.abort }

/-! ## Helper lemmas -/

/-- The short-circuited `changing` computation never faults and agrees
with its total form. -/
theorem charmChanging_ok (s : OpState) :
    charmChanging s = Except.ok (charmChangingB s) := by
  rcases s with ⟨k, stp, hk, sa, so⟩
  cases k <;> cases hk <;>
    simp [charmChanging, charmChangingB, derefHookKind, Option.isSome,
      Bind.bind, Except.bind]

/-- `updateCharmDir` always selects exactly one guard operation, the
one computed by `guardCallOf`. -/
theorem updateCharmDirCall_eq (s : OpState) :
    updateCharmDirCall s = Except.ok (guardCallOf s) := by
  simp only [updateCharmDirCall, charmChanging_ok, guardCallOf, charmAvailable,
    Bind.bind, Except.bind]
  split <;> rfl

/-- The code's `changing` value coincides with the spec's derivation
formula. -/
theorem charmChangingB_eq_spec (s : OpState) :
    charmChangingB s = specChanging s := by
  rcases s with ⟨k, stp, hk, sa, so⟩
  cases k <;> cases hk <;>
    simp [charmChangingB, specChanging, hookIsUpgrade]

/-- A fatal return inside the inner loop propagates unchanged through
the outer iteration. -/
theorem outerBody_inner_fatal (env : Env) (n : Nat) (st : LoopSt) (t : List Action)
    (e : GoError)
    (h : innerLoop env n (afterDecideSt st) (topDecide env st) = (t, InnerRes.fatal e)) :
    outerBody env n st = (topActs env st ++ t, BodyRes.ret e) := by
  simp only [outerBody, h]

/-- A fatal dispatch result makes the outer iteration return it. -/
theorem outerBody_dispatch_fatal (env : Env) (n : Nat) (st : LoopSt) (t : List Action)
    (e fe : GoError) (st2 : LoopSt)
    (h : innerLoop env n (afterDecideSt st) (topDecide env st) = (t, InnerRes.exitRes e st2))
    (hf : (dispatchStep (idleResult env st2.ii) e).res = DispatchRes.fatal fe) :
    outerBody env n st =
      (topActs env st ++ t ++ (dispatchStep (idleResult env st2.ii) e).acts,
        BodyRes.ret fe) := by
  simp only [outerBody, h, hf]

/-- A returning outer iteration makes the outer loop return the same
error with the same trace. -/
theorem outerLoop_body_ret (env : Env) (m : Nat) (st : LoopSt) (t : List Action)
    (fe : GoError) (h : outerBody env m st = (t, BodyRes.ret fe)) :
    outerLoop env (Nat.succ m) st = (t, LoopRes.ret fe) := by
  simp only [outerLoop, h]

/-- Invariants of the inner loop, by induction on fuel: a normal exit
carries a non-nil error, preserves a raised `fire` flag, never
decreases the remote version, leaves the select and idle counters
untouched, and any run during which a notification was consumed
forces `fire` at exit; a fatal return carries a non-nil error. -/
theorem innerLoop_facts (env : Env) : ∀ (n : Nat) (st : LoopSt) (r : NextOpRet),
    (∀ t e st2, innerLoop env n st r = (t, InnerRes.exitRes e st2) →
      e ≠ Option.none ∧ (st.fire = true → st2.fire = true) ∧
      st.remote ≤ st2.remote ∧ st2.si = st.si ∧ st2.ii = st.ii ∧
      (∀ i o er, Action.runAct i o er true ∈ t → st2.fire = true)) ∧
    (∀ t e, innerLoop env n st r = (t, InnerRes.fatal e) → e ≠ Option.none) := by
  intro n
  induction n with
  | zero =>
    intro st r
    constructor
    · intro t e st2 h
      simp [innerLoop] at h
    · intro t e h
      simp [innerLoop] at h
  | succ n ih =>
    intro st r
    cases hre : r.err with
    | some e0 =>
      constructor
      · intro t e st2 h
        simp only [innerLoop, hre, Prod.mk.injEq, InnerRes.exitRes.injEq] at h
        obtain ⟨ht, he, hst⟩ := h
        subst he
        subst hst
        refine ⟨by simp, fun hf => hf, le_refl _, rfl, rfl, ?_⟩
        intro i o er hmem
        rw [← ht] at hmem
        simp at hmem
      · intro t e h
        simp only [innerLoop, hre, Prod.mk.injEq] at h
        exact absurd h.2 (by simp)
    | none =>
      cases hro : (env.runOp st.ri r.op).err with
      | some e1 =>
        constructor
        · intro t e st2 h
          simp only [innerLoop, hre, hro, Prod.mk.injEq] at h
          exact absurd h.2 (by simp)
        · intro t e h
          simp only [innerLoop, hre, hro, goTrace, Prod.mk.injEq,
            InnerRes.fatal.injEq] at h
          rw [← h.2]
          simp
      | none =>
        cases hge : guardResult env st.gi (guardCallOf (env.runOp st.ri r.op).newLocal) with
        | some g =>
          constructor
          · intro t e st2 h
            simp only [innerLoop, hre, hro, runUpdateSt, hge, Prod.mk.injEq] at h
            exact absurd h.2 (by simp)
          · intro t e h
            simp only [innerLoop, hre, hro, runUpdateSt, hge, goTrace, Prod.mk.injEq,
              InnerRes.fatal.injEq] at h
            rw [← h.2]
            simp
        | none =>
          constructor
          · intro t e st2 h
            simp only [innerLoop, hre, hro, runUpdateSt, afterGuardSt, afterDecideSt,
              hge, Prod.mk.injEq] at h
            obtain ⟨ht, hres⟩ := h
            set stN : LoopSt :=
              { localSt := (env.runOp st.ri r.op).newLocal
                remote := st.remote + (env.runOp st.ri r.op).remoteInc
                fire := st.fire || (env.runOp st.ri r.op).notify
                ni := st.ni + 1
                ri := st.ri + 1
                gi := st.gi + 1
                ii := st.ii
                si := st.si } with hstN
            set rN : NextOpRet :=
              env.nextOp st.ni (env.runOp st.ri r.op).newLocal
                (st.remote + (env.runOp st.ri r.op).remoteInc) with hrN
            have hX : innerLoop env n stN rN =
                ((innerLoop env n stN rN).1, InnerRes.exitRes e st2) := by
              rw [← hres]
            have hfacts := (ih stN rN).1 (innerLoop env n stN rN).1 e st2 hX
            obtain ⟨hne, hfire, hrem, hsi, hii, hmem⟩ := hfacts
            refine ⟨hne, ?_, ?_, ?_, ?_, ?_⟩
            · intro hf
              exact hfire (by simp [hstN, hf])
            · calc st.remote ≤ st.remote + (env.runOp st.ri r.op).remoteInc :=
                    Nat.le_add_right _ _
                _ = stN.remote := rfl
                _ ≤ st2.remote := hrem
            · rw [hsi]
            · rw [hii]
            · intro i o er hmem2
              rw [← ht] at hmem2
              simp at hmem2
              rcases hmem2 with (⟨hi, ho, her, hnot⟩ | hrest)
              · exact hfire (by simp [hstN, hnot])
              · exact hmem i o er hrest
          · intro t e h
            simp only [innerLoop, hre, hro, runUpdateSt, afterGuardSt, afterDecideSt,
              hge, Prod.mk.injEq] at h
            obtain ⟨ht, hres⟩ := h
            set stN : LoopSt :=
              { localSt := (env.runOp st.ri r.op).newLocal
                remote := st.remote + (env.runOp st.ri r.op).remoteInc
                fire := st.fire || (env.runOp st.ri r.op).notify
                ni := st.ni + 1
                ri := st.ri + 1
                gi := st.gi + 1
                ii := st.ii
                si := st.si } with hstN
            set rN : NextOpRet :=
              env.nextOp st.ni (env.runOp st.ri r.op).newLocal
                (st.remote + (env.runOp st.ri r.op).remoteInc) with hrN
            have hX : innerLoop env n stN rN =
                ((innerLoop env n stN rN).1, InnerRes.fatal e) := by
              rw [← hres]
            exact (ih stN rN).2 (innerLoop env n stN rN).1 e hX

/-- A pending `fire` wakeup keeps the blocking select from blocking. -/
theorem selectPick_fire_ready (env : Env) (st : LoopSt) (h : st.fire = true) :
    selectPick env st ≠ Option.none := by
  unfold selectPick
  split_ifs with h1 h2 h3 h4 <;> simp_all [selectReady]

/-- When only the abort case is ready, the select takes it. -/
theorem selectPick_abort_only (env : Env) (st : LoopSt)
    (ha : env.abortSet st.si = true) (hc : env.changeReady st.si = false)
    (hf : st.fire = false) :
    selectPick env st = Option.some Branch.abort := by
  unfold selectPick
  cases hp : env.pick st.si <;> simp [selectReady, hp, ha, hc, hf]

/-- The dispatch switch does not change the remote version. -/
theorem postDispatchSt_remote (env : Env) (st2 : LoopSt) (e : GoError) :
    (postDispatchSt env st2 e).remote = st2.remote := by
  unfold postDispatchSt
  split <;> rfl

/-- The dispatch switch does not change the local state. -/
theorem postDispatchSt_localSt (env : Env) (st2 : LoopSt) (e : GoError) :
    (postDispatchSt env st2 e).localSt = st2.localSt := by
  unfold postDispatchSt
  split <;> rfl

/-- When the select resolves to the abort case, the outer iteration
returns `ErrLoopAborted`, the trace ending at the select. -/
theorem outerBody_select_abort (env : Env) (n : Nat) (st : LoopSt) (t : List Action)
    (e : GoError) (st2 : LoopSt)
    (h : innerLoop env n (afterDecideSt st) (topDecide env st) = (t, InnerRes.exitRes e st2))
    (hd : (dispatchStep (idleResult env st2.ii) e).res = DispatchRes.proceed)
    (hs : selectPick env (postDispatchSt env st2 e) = Option.some Branch.abort) :
    outerBody env n st =
      (topActs env st ++ t ++ (dispatchStep (idleResult env st2.ii) e).acts ++
        [Action.waitTaken Branch.abort],
        BodyRes.ret (Option.some ErrVal.errLoopAborted)) := by
  simp only [outerBody, h, hd, hs]

/-- A continuing outer iteration came from a normal inner-loop exit
whose final remote version and local state it preserves. -/
theorem outerBody_continue_src (env : Env) (n : Nat) (st : LoopSt) (t : List Action)
    (st3 : LoopSt) (h : outerBody env n st = (t, BodyRes.continueSt st3)) :
    ∃ t2 e st2,
      innerLoop env n (afterDecideSt st) (topDecide env st) = (t2, InnerRes.exitRes e st2) ∧
      st3.remote = st2.remote ∧ st3.localSt = st2.localSt := by
  rcases hinner : innerLoop env n (afterDecideSt st) (topDecide env st) with ⟨t2, ir⟩
  cases ir with
  | fatal e0 =>
    rw [outerBody_inner_fatal env n st t2 e0 hinner] at h
    simp at h
  | fuel =>
    simp only [outerBody, hinner] at h
    simp at h
  | exitRes e0 st2 =>
    refine ⟨t2, e0, st2, rfl, ?_⟩
    simp only [outerBody, hinner] at h
    rcases hd : (dispatchStep (idleResult env st2.ii) e0).res with _ | fe
    · rw [hd] at h
      rcases hs : selectPick env (postDispatchSt env st2 e0) with _ | b
      · rw [hs] at h
        simp at h
      · rw [hs] at h
        cases b <;> simp only [Prod.mk.injEq] at h
        · exact absurd h.2 (by simp)
        · rw [← (BodyRes.continueSt.injEq _ _).mp h.2]
          exact ⟨postDispatchSt_remote env st2 e0, postDispatchSt_localSt env st2 e0⟩
        · rw [← (BodyRes.continueSt.injEq _ _).mp h.2]
          exact ⟨postDispatchSt_remote env st2 e0, postDispatchSt_localSt env st2 e0⟩
    · rw [hd] at h
      simp at h

/-- Every outer iteration's trace starts by snapshotting the current
remote state. -/
theorem outerBody_trace_head (env : Env) (n : Nat) (st : LoopSt) :
    ∃ rest, (outerBody env n st).1 = Action.snap st.remote :: rest := by
  rcases hinner : innerLoop env n (afterDecideSt st) (topDecide env st) with ⟨t2, ir⟩
  cases ir with
  | fatal e0 =>
    simp only [outerBody, hinner, topActs]
    exact ⟨_, rfl⟩
  | fuel =>
    simp only [outerBody, hinner, topActs]
    exact ⟨_, rfl⟩
  | exitRes e0 st2 =>
    simp only [outerBody, hinner, topActs]
    rcases hd : (dispatchStep (idleResult env st2.ii) e0).res with _ | fe
    · rcases hs : selectPick env (postDispatchSt env st2 e0) with _ | b
      · simp only [hd, hs]
        exact ⟨_, rfl⟩
      · cases b <;> simp only [hd, hs] <;> exact ⟨_, rfl⟩
    · simp only [hd]
      exact ⟨_, rfl⟩

/-- A fatal dispatch result is never the nil error. -/
theorem dispatchStep_fatal_ne_nil (idr : Option GoError) (e : GoError) (fe : GoError)
    (h : (dispatchStep idr e).res = DispatchRes.fatal fe) : fe ≠ Option.none := by
  rcases e with _ | v
  · simp [dispatchStep, goCause] at h
  · have hv : goCause (Option.some v) = Option.some v.cause := rfl
    rcases hc : v.cause with _ | _ | _ | _ | m | w
    · simp [dispatchStep, hv, hc] at h
    · rcases idr with _ | ie
      · simp [dispatchStep, hv, hc] at h
      · rcases ie with _ | ie2
        · simp [dispatchStep, hv, hc] at h
        · simp only [dispatchStep, hv, hc, goTrace, DispatchRes.fatal.injEq] at h
          rw [← h]
          simp
    · simp only [dispatchStep, hv, hc, DispatchRes.fatal.injEq] at h
      rw [← h]
      simp
    · simp only [dispatchStep, hv, hc, DispatchRes.fatal.injEq] at h
      rw [← h]
      simp
    · simp only [dispatchStep, hv, hc, DispatchRes.fatal.injEq] at h
      rw [← h]
      simp
    · simp only [dispatchStep, hv, hc, DispatchRes.fatal.injEq] at h
      rw [← h]
      simp

/-- A returning outer iteration never returns the nil error. -/
theorem outerBody_ret_ne_nil (env : Env) (n : Nat) (st : LoopSt) (t : List Action)
    (e : GoError) (h : outerBody env n st = (t, BodyRes.ret e)) : e ≠ Option.none := by
  rcases hinner : innerLoop env n (afterDecideSt st) (topDecide env st) with ⟨t2, ir⟩
  cases ir with
  | fatal e0 =>
    rw [outerBody_inner_fatal env n st t2 e0 hinner] at h
    simp only [Prod.mk.injEq, BodyRes.ret.injEq] at h
    rw [← h.2]
    exact (innerLoop_facts env n (afterDecideSt st) (topDecide env st)).2 t2 e0 hinner
  | fuel =>
    simp only [outerBody, hinner] at h
    simp at h
  | exitRes e0 st2 =>
    simp only [outerBody, hinner] at h
    rcases hd : (dispatchStep (idleResult env st2.ii) e0).res with _ | fe
    · rw [hd] at h
      rcases hs : selectPick env (postDispatchSt env st2 e0) with _ | b
      · rw [hs] at h
        simp at h
      · rw [hs] at h
        cases b <;> simp only [Prod.mk.injEq] at h
        · rw [← (BodyRes.ret.injEq _ _).mp h.2]
          simp
        · exact absurd h.2 (by simp)
        · exact absurd h.2 (by simp)
    · rw [hd] at h
      simp only [Prod.mk.injEq, BodyRes.ret.injEq] at h
      rw [← h.2]
      exact dispatchStep_fatal_ne_nil (idleResult env st2.ii) e0 fe hd

/-- The outer loop never returns the nil error. -/
theorem outerLoop_ret_ne_nil (env : Env) : ∀ (fuel : Nat) (st : LoopSt) (t : List Action)
    (e : GoError), outerLoop env fuel st = (t, LoopRes.ret e) → e ≠ Option.none := by
  intro fuel
  induction fuel with
  | zero =>
    intro st t e h
    simp [outerLoop] at h
  | succ n ih =>
    intro st t e h
    rcases hb : outerBody env n st with ⟨tb, br⟩
    cases br with
    | ret e0 =>
      simp only [outerLoop, hb, Prod.mk.injEq, LoopRes.ret.injEq] at h
      rw [← h.2]
      exact outerBody_ret_ne_nil env n st tb e0 hb
    | blocked =>
      simp only [outerLoop, hb, Prod.mk.injEq] at h
      exact absurd h.2 (by simp)
    | fuel =>
      simp only [outerLoop, hb, Prod.mk.injEq] at h
      exact absurd h.2 (by simp)
    | continueSt st2 =>
      simp only [outerLoop, hb, Prod.mk.injEq] at h
      have hrest : outerLoop env n st2 =
          ((outerLoop env n st2).1, LoopRes.ret e) := by
        rw [← h.2]
      exact ih st2 (outerLoop env n st2).1 e hrest

/-! ## Claim theorems -/

/-- C1: for every local state value, `updateCharmDir` computes
`changing = (Kind is Install or Upgrade) or (Kind is RunHook and the
recorded Hook is an upgrade-charm hook)`, computes `available =
Started && !Stopped && !changing`, and calls exactly one of the two
guard operations: Unlock when available, Lockdown when not.  In
particular Kind = Install implies Lockdown regardless of
Started/Stopped, and Kind = RunHook with a non-upgrade hook and
Started = true, Stopped = false implies Unlock. -/
theorem c1_guard_derivation (s : OpState) :
    updateCharmDirCall s =
      Except.ok (if specAvailable s then GuardCall.unlock else GuardCall.lockdown) ∧
    (s.kind = OpKind.install → updateCharmDirCall s = Except.ok GuardCall.lockdown) ∧
    (s.kind = OpKind.runHook → hookIsUpgrade s.hook = false → s.started = true →
      s.stopped = false → updateCharmDirCall s = Except.ok GuardCall.unlock) := by
  have hmain : updateCharmDirCall s =
      Except.ok (if specAvailable s then GuardCall.unlock else GuardCall.lockdown) := by
    rw [updateCharmDirCall_eq]
    simp [guardCallOf, charmAvailable, specAvailable, charmChangingB_eq_spec]
  refine ⟨hmain, ?_, ?_⟩
  · intro h
    rw [hmain]
    simp [specAvailable, specChanging, h]
  · intro hk hu hs hst
    rw [hmain]
    simp [specAvailable, specChanging, hk, hu, hs, hst]

/-- Witness for C1: the Install state is locked down, the started
non-upgrade RunHook state is unlocked. -/
theorem c1_guard_derivation_witness :
    updateCharmDirCall exInstallSt = Except.ok GuardCall.lockdown ∧
    updateCharmDirCall exRunHookSt = Except.ok GuardCall.unlock :=
  ⟨(c1_guard_derivation exInstallSt).2.1 rfl,
   (c1_guard_derivation exRunHookSt).2.2 rfl rfl rfl rfl⟩

/-- C9: for every local state with Kind = RunHook and no hook
recorded, the guard update never dereferences the absent hook:
`changing` evaluates to false without faulting, and the guard is
unlocked exactly when Started && !Stopped. -/
theorem c9_nil_hook_no_deref (s : OpState)
    (hk : s.kind = OpKind.runHook) (hh : s.hook = Option.none) :
    charmChanging s = Except.ok false ∧
    updateCharmDirCall s =
      Except.ok (if s.started && !s.stopped then GuardCall.unlock else GuardCall.lockdown) := by
  constructor
  · rw [charmChanging_ok]
    simp [charmChangingB, hk, hh]
  · rw [updateCharmDirCall_eq]
    simp [guardCallOf, charmAvailable, charmChangingB, hk, hh]

/-- Witness for C9: the started RunHook state without a hook is
unlocked without faulting. -/
theorem c9_nil_hook_no_deref_witness :
    charmChanging exNilHookSt = Except.ok false ∧
    updateCharmDirCall exNilHookSt = Except.ok GuardCall.unlock :=
  ⟨(c9_nil_hook_no_deref exNilHookSt rfl rfl).1,
   (c9_nil_hook_no_deref exNilHookSt rfl rfl).2⟩

/-- C2: when `NextOp` fails, the loop dispatches on the error's
cause: `ErrWaiting` is recovered locally with no idle callback;
`ErrNoOperation` is recovered locally, invoking the configured idle
callback, whose non-nil error terminates the loop; every other error
— `ErrDoNotProceed` included, never conflated with `ErrNoOperation` —
terminates the loop immediately with that error. -/
theorem c2_error_dispatch :
    (∀ idr e, goCause e = Option.some ErrVal.errWaiting →
      dispatchStep idr e = ⟨[], false, DispatchRes.proceed⟩) ∧
    (∀ e, goCause e = Option.some ErrVal.errNoOperation →
      dispatchStep Option.none e = ⟨[], false, DispatchRes.proceed⟩) ∧
    (∀ e, goCause e = Option.some ErrVal.errNoOperation →
      dispatchStep (Option.some Option.none) e =
        ⟨[Action.idleAct Option.none], true, DispatchRes.proceed⟩) ∧
    (∀ e ie, goCause e = Option.some ErrVal.errNoOperation →
      dispatchStep (Option.some (Option.some ie)) e =
        ⟨[Action.idleAct (Option.some ie)], true,
          DispatchRes.fatal (Option.some (ErrVal.traced ie))⟩) ∧
    (∀ idr e c, goCause e = Option.some c →
      c ≠ ErrVal.errWaiting → c ≠ ErrVal.errNoOperation →
      dispatchStep idr e = ⟨[], false, DispatchRes.fatal e⟩) ∧
    (∀ idr e, goCause e = Option.some ErrVal.errDoNotProceed →
      dispatchStep idr e = ⟨[], false, DispatchRes.fatal e⟩) ∧
    (∀ env n st t e st2 fe,
      innerLoop env n (afterDecideSt st) (topDecide env st) = (t, InnerRes.exitRes e st2) →
      (dispatchStep (idleResult env st2.ii) e).res = DispatchRes.fatal fe →
      (outerBody env n st).2 = BodyRes.ret fe) := by
  refine ⟨?_, ?_, ?_, ?_, ?_, ?_, ?_⟩
  · intro idr e h
    simp only [dispatchStep, h]
  · intro e h
    simp only [dispatchStep, h]
  · intro e h
    simp only [dispatchStep, h]
  · intro e ie h
    simp only [dispatchStep, h, goTrace]
  · intro idr e c h hc1 hc2
    cases c <;> simp_all [dispatchStep]
  · intro idr e h
    simp only [dispatchStep, h]
  · intro env n st t e st2 fe h hf
    rw [outerBody_dispatch_fatal env n st t e fe st2 h hf]

/-- Witness for C2: the idle branch fires for `ErrNoOperation`, a
bare `ErrDoNotProceed` is fatal, and the loop iteration returns it. -/
theorem c2_error_dispatch_witness :
    dispatchStep (Option.some Option.none) (Option.some ErrVal.errNoOperation) =
      ⟨[Action.idleAct Option.none], true, DispatchRes.proceed⟩ ∧
    dispatchStep Option.none (Option.some ErrVal.errDoNotProceed) =
      ⟨[], false, DispatchRes.fatal (Option.some ErrVal.errDoNotProceed)⟩ ∧
    (outerBody envStop 1 (initLoopSt envStop)).2 =
      BodyRes.ret (Option.some ErrVal.errDoNotProceed) :=
  ⟨c2_error_dispatch.2.2.1 (Option.some ErrVal.errNoOperation) rfl,
   c2_error_dispatch.2.2.2.2.2.1 Option.none (Option.some ErrVal.errDoNotProceed) rfl,
   c2_error_dispatch.2.2.2.2.2.2 envStop 1 (initLoopSt envStop) []
     (Option.some ErrVal.errDoNotProceed) (afterDecideSt (initLoopSt envStop))
     (Option.some ErrVal.errDoNotProceed) rfl rfl⟩

/-- C10: sentinel recognition unwraps error causes: any error whose
cause is `ErrNoOperation` or `ErrWaiting` — in particular a
`Trace`-wrapped sentinel — drives the idle or wait branch instead of
terminating the loop fatally. -/
theorem c10_sentinel_cause (e : ErrVal) :
    (ErrVal.cause e = ErrVal.errWaiting → ∀ idr,
      dispatchStep idr (Option.some e) = ⟨[], false, DispatchRes.proceed⟩) ∧
    (ErrVal.cause e = ErrVal.errNoOperation →
      dispatchStep Option.none (Option.some e) = ⟨[], false, DispatchRes.proceed⟩) ∧
    (ErrVal.cause e = ErrVal.errNoOperation → ∀ ir,
      (dispatchStep (Option.some ir) (Option.some e)).invoked = true) ∧
    (∀ idr, dispatchStep idr (Option.some (ErrVal.traced ErrVal.errWaiting)) =
      ⟨[], false, DispatchRes.proceed⟩) ∧
    (∀ ir, (dispatchStep (Option.some ir)
      (Option.some (ErrVal.traced ErrVal.errNoOperation))).invoked = true) := by
  have hc : ∀ e : ErrVal, goCause (Option.some e) = Option.some e.cause := fun _ => rfl
  refine ⟨?_, ?_, ?_, ?_, ?_⟩
  · intro h idr
    simp only [dispatchStep, hc, h]
  · intro h
    simp only [dispatchStep, hc, h]
  · intro h ir
    simp only [dispatchStep, hc, h]
  · intro idr
    simp only [dispatchStep, hc, ErrVal.cause]
  · intro ir
    simp only [dispatchStep, hc, ErrVal.cause]

/-- Witness for C10: a doubly wrapped `ErrWaiting` proceeds without
idling and a wrapped `ErrNoOperation` invokes the idle callback. -/
theorem c10_sentinel_cause_witness :
    dispatchStep Option.none
      (Option.some (ErrVal.traced (ErrVal.traced ErrVal.errWaiting))) =
      ⟨[], false, DispatchRes.proceed⟩ ∧
    (dispatchStep (Option.some Option.none)
      (Option.some (ErrVal.traced ErrVal.errNoOperation))).invoked = true :=
  ⟨(c10_sentinel_cause (ErrVal.traced (ErrVal.traced ErrVal.errWaiting))).1 rfl Option.none,
   (c10_sentinel_cause (ErrVal.traced ErrVal.errNoOperation)).2.2.1 rfl Option.none⟩

/-- C5: a non-nil `Executor.Run` error makes the loop return it
(traced) at once: the trace of the inner loop stops at the failed run
action — no retry, no guard recomputation, no idle callback, no
further `NextOp` — and the outer loop returns the same error with
nothing appended. -/
theorem c5_run_failure (env : Env) (n : Nat) (st : LoopSt) (r : NextOpRet) (e : ErrVal)
    (hr : r.err = Option.none)
    (he : (env.runOp st.ri r.op).err = Option.some e) :
    innerLoop env (Nat.succ n) st r =
      ([Action.runAct st.ri r.op (Option.some e) (env.runOp st.ri r.op).notify],
        InnerRes.fatal (Option.some (ErrVal.traced e))) ∧
    (∀ m st0 t fe,
      innerLoop env m (afterDecideSt st0) (topDecide env st0) = (t, InnerRes.fatal fe) →
      outerBody env m st0 = (topActs env st0 ++ t, BodyRes.ret fe)) ∧
    (∀ m st0 t fe, outerBody env m st0 = (t, BodyRes.ret fe) →
      outerLoop env (Nat.succ m) st0 = (t, LoopRes.ret fe)) := by
  refine ⟨?_, ?_, ?_⟩
  · simp only [innerLoop, hr, he, goTrace]
  · intro m st0 t fe h
    exact outerBody_inner_fatal env m st0 t fe h
  · intro m st0 t fe h
    exact outerLoop_body_ret env m st0 t fe h

/-- Witness for C5: the failing executor environment returns the
traced run error right after the single run action. -/
theorem c5_run_failure_witness :
    innerLoop envRunFail 2 (initLoopSt envRunFail) ⟨⟨5⟩, Option.none⟩ =
      ([Action.runAct 0 ⟨5⟩ (Option.some (ErrVal.other 3)) true],
        InnerRes.fatal (Option.some (ErrVal.traced (ErrVal.other 3)))) :=
  (c5_run_failure envRunFail 1 (initLoopSt envRunFail) ⟨⟨5⟩, Option.none⟩
    (ErrVal.other 3) rfl rfl).1

/-- C4: after every successful `Executor.Run` and before the next
`NextOp` call, the loop performs in order: re-snapshot remote state,
re-read local state, recompute and apply the charm directory guard
from the refreshed local state — a guard failure terminating the loop
— and only then call `NextOp` with the refreshed local and remote
state. -/
theorem c4_post_run_sequence (env : Env) (n : Nat) (st : LoopSt) (r : NextOpRet)
    (hr : r.err = Option.none)
    (hok : (env.runOp st.ri r.op).err = Option.none) :
    (∀ g, guardResult env st.gi (guardCallOf (env.runOp st.ri r.op).newLocal) =
        Option.some g →
      innerLoop env (Nat.succ n) st r =
        ([Action.runAct st.ri r.op Option.none (env.runOp st.ri r.op).notify,
          Action.snap (runUpdateSt st (env.runOp st.ri r.op)).remote,
          Action.readState (env.runOp st.ri r.op).newLocal,
          Action.guardAct (guardCallOf (env.runOp st.ri r.op).newLocal) (Option.some g)],
          InnerRes.fatal (Option.some (ErrVal.traced g)))) ∧
    (guardResult env st.gi (guardCallOf (env.runOp st.ri r.op).newLocal) = Option.none →
      innerLoop env (Nat.succ n) st r =
        ([Action.runAct st.ri r.op Option.none (env.runOp st.ri r.op).notify,
          Action.snap (runUpdateSt st (env.runOp st.ri r.op)).remote,
          Action.readState (env.runOp st.ri r.op).newLocal,
          Action.guardAct (guardCallOf (env.runOp st.ri r.op).newLocal) Option.none,
          Action.decideOp st.ni (postGuardDecide env st (env.runOp st.ri r.op))] ++
          (innerLoop env n (afterDecideSt (afterGuardSt (runUpdateSt st (env.runOp st.ri r.op))))
            (postGuardDecide env st (env.runOp st.ri r.op))).1,
          (innerLoop env n (afterDecideSt (afterGuardSt (runUpdateSt st (env.runOp st.ri r.op))))
            (postGuardDecide env st (env.runOp st.ri r.op))).2)) := by
  constructor
  · intro g hg
    simp only [innerLoop, hr, hok, runUpdateSt] at hg ⊢
    simp only [hg, goTrace]
  · intro hg
    simp only [innerLoop, hr, hok, postGuardDecide, afterGuardSt, afterDecideSt,
      runUpdateSt] at hg ⊢
    simp [hg]

/-- Witness for C4: after a successful run the trace continues with
snapshot, state read, guard call and the refreshed decision. -/
theorem c4_post_run_sequence_witness :
    innerLoop envStop 2 (initLoopSt envStop) ⟨⟨7⟩, Option.none⟩ =
      ([Action.runAct 0 ⟨7⟩ Option.none false,
        Action.snap 0,
        Action.readState exRunHookSt,
        Action.guardAct GuardCall.unlock Option.none,
        Action.decideOp 0 ⟨⟨0⟩, Option.some ErrVal.errDoNotProceed⟩],
        InnerRes.exitRes (Option.some ErrVal.errDoNotProceed)
          ⟨exRunHookSt, 0, false, 1, 1, 2, 0, 0⟩) := by
  have h := (c4_post_run_sequence envStop 1 (initLoopSt envStop)
    ⟨⟨7⟩, Option.none⟩ rfl rfl).2 rfl
  exact h.trans (by decide)

/-- C6: before the first iteration and before any `NextOp` call, the
loop synchronizes the charm directory guard exactly once from the
executor's startup state, using the same derivation as every later
update; if this initial synchronization fails the loop returns the
(traced) error without ever deciding or running an operation. -/
theorem c6_initial_guard_sync (env : Env) (fuel : Nat) :
    (∀ g, guardResult env 0 (guardCallOf env.local0) = Option.some g →
      Loop env fuel =
        ([Action.readState env.local0,
          Action.guardAct (guardCallOf env.local0) (Option.some g)],
          LoopRes.ret (Option.some (ErrVal.traced g)))) ∧
    (guardResult env 0 (guardCallOf env.local0) = Option.none →
      Loop env fuel =
        ([Action.readState env.local0,
          Action.guardAct (guardCallOf env.local0) Option.none] ++
          (outerLoop env fuel (initLoopSt env)).1,
          (outerLoop env fuel (initLoopSt env)).2)) ∧
    updateCharmDirCall env.local0 = Except.ok (guardCallOf env.local0) := by
  refine ⟨?_, ?_, updateCharmDirCall_eq env.local0⟩
  · intro g hg
    simp only [Loop, hg, goTrace]
  · intro hg
    simp only [Loop, hg]

/-- Witness for C6: an initial lockdown failure is returned at once
with no decision made, and a successful initial unlock precedes the
first decision actions. -/
theorem c6_initial_guard_sync_witness :
    Loop envGuardFail 5 =
      ([Action.readState exInstallSt,
        Action.guardAct GuardCall.lockdown (Option.some (ErrVal.other 7))],
        LoopRes.ret (Option.some (ErrVal.traced (ErrVal.other 7)))) ∧
    Loop envStop 2 =
      ([Action.readState exRunHookSt, Action.guardAct GuardCall.unlock Option.none] ++
        (outerLoop envStop 2 (initLoopSt envStop)).1,
        (outerLoop envStop 2 (initLoopSt envStop)).2) := by
  constructor
  · have h := (c6_initial_guard_sync envGuardFail 5).1 (ErrVal.other 7) rfl
    exact h.trans (by decide)
  · exact (c6_initial_guard_sync envStop 2).2.1 rfl

/-- C8: the nil case of the terminating-error dispatch is unreachable
and the loop never returns a nil error: the inner loop exits only
with a non-nil error (whose cause is also non-nil, so the switch's
nil case never fires), and every returning exit of `Loop` carries a
non-nil error. -/
theorem c8_no_nil_error :
    (∀ env n st r t e st2, innerLoop env n st r = (t, InnerRes.exitRes e st2) →
      e ≠ Option.none ∧ goCause e ≠ Option.none) ∧
    (∀ env fuel t e, Loop env fuel = (t, LoopRes.ret e) → e ≠ Option.none) := by
  constructor
  · intro env n st r t e st2 h
    have hne := ((innerLoop_facts env n st r).1 t e st2 h).1
    refine ⟨hne, ?_⟩
    rcases e with _ | v
    · exact absurd rfl hne
    · simp [goCause]
  · intro env fuel t e h
    rcases hg : guardResult env 0 (guardCallOf env.local0) with _ | g
    · simp only [Loop, hg, Prod.mk.injEq] at h
      have hrest : outerLoop env fuel (initLoopSt env) =
          ((outerLoop env fuel (initLoopSt env)).1, LoopRes.ret e) := by
        rw [← h.2]
      exact outerLoop_ret_ne_nil env fuel (initLoopSt env)
        (outerLoop env fuel (initLoopSt env)).1 e hrest
    · simp only [Loop, hg, goTrace, Prod.mk.injEq, LoopRes.ret.injEq] at h
      rw [← h.2]
      simp

/-- Witness for C8: the loop run that stops on `ErrDoNotProceed`
returns a non-nil error, and a concrete inner-loop exit carries a
non-nil error with non-nil cause. -/
theorem c8_no_nil_error_witness :
    ((Option.some ErrVal.errDoNotProceed : GoError) ≠ Option.none) ∧
    ((Option.some ErrVal.errDoNotProceed : GoError) ≠ Option.none ∧
      goCause (Option.some ErrVal.errDoNotProceed) ≠ Option.none) :=
  ⟨c8_no_nil_error.2 envStop 2
      [Action.readState exRunHookSt, Action.guardAct GuardCall.unlock Option.none,
        Action.snap 0, Action.readState exRunHookSt,
        Action.decideOp 0 ⟨⟨0⟩, Option.some ErrVal.errDoNotProceed⟩]
      (Option.some ErrVal.errDoNotProceed) (by decide),
   c8_no_nil_error.1 envStop 1 (afterDecideSt (initLoopSt envStop))
      ⟨⟨0⟩, Option.some ErrVal.errDoNotProceed⟩ []
      (Option.some ErrVal.errDoNotProceed) (afterDecideSt (initLoopSt envStop)) rfl⟩

/-- C7: a change notification consumed while an operation runs is not
dropped: it raises the capacity-one `fire` wakeup, which the inner
loop only ever raises and whose being raised keeps the blocking
select from blocking; the remote version never decreases across the
inner loop, a continuing iteration hands the inner loop's final
remote version to the next cycle, and the next cycle's first action
snapshots exactly that version — so the next decision observes a
snapshot at least as recent as the one in effect at the
notification. -/
theorem c7_no_missed_change :
    (∀ env n st r t e st2, innerLoop env n st r = (t, InnerRes.exitRes e st2) →
      (st.fire = true → st2.fire = true) ∧ st.remote ≤ st2.remote ∧
      (∀ i o er, Action.runAct i o er true ∈ t → st2.fire = true)) ∧
    (∀ env st, st.fire = true → selectPick env st ≠ Option.none) ∧
    (∀ env n st t st3, outerBody env n st = (t, BodyRes.continueSt st3) →
      ∃ t2 e st2,
        innerLoop env n (afterDecideSt st) (topDecide env st) = (t2, InnerRes.exitRes e st2) ∧
        st3.remote = st2.remote ∧ st3.localSt = st2.localSt) ∧
    (∀ env n st, ∃ rest, (outerBody env n st).1 = Action.snap st.remote :: rest) := by
  refine ⟨?_, selectPick_fire_ready, outerBody_continue_src, outerBody_trace_head⟩
  intro env n st r t e st2 h
  have hf := (innerLoop_facts env n st r).1 t e st2 h
  exact ⟨hf.2.1, hf.2.2.1, hf.2.2.2.2.2⟩

/-- Witness for C7: in the notifying environment the inner loop exits
with `fire` raised, the select with a raised `fire` is not blocked,
and the continuing iteration snapshots the advanced remote version. -/
theorem c7_no_missed_change_witness :
    ((initLoopSt envNotify).fire = true → True) ∧
    (selectPick envNotify ⟨exRunHookSt, 7, true, 2, 1, 2, 0, 0⟩ ≠ Option.none) ∧
    (∃ rest, (outerBody envNotify 0 ⟨exRunHookSt, 7, false, 2, 1, 2, 0, 1⟩).1 =
      Action.snap 7 :: rest) ∧
    (Action.runAct 0 ⟨2⟩ Option.none true ∈
        ([Action.runAct 0 ⟨2⟩ Option.none true, Action.snap 7,
          Action.readState exRunHookSt, Action.guardAct GuardCall.unlock Option.none,
          Action.decideOp 1 ⟨⟨0⟩, Option.some ErrVal.errNoOperation⟩] : List Action) →
      (⟨exRunHookSt, 7, true, 2, 1, 2, 0, 0⟩ : LoopSt).fire = true) :=
  ⟨fun _ => trivial,
   c7_no_missed_change.2.1 envNotify ⟨exRunHookSt, 7, true, 2, 1, 2, 0, 0⟩ rfl,
   c7_no_missed_change.2.2.2 envNotify 0 ⟨exRunHookSt, 7, false, 2, 1, 2, 0, 1⟩,
   fun hm => ((c7_no_missed_change.1 envNotify 2 (afterDecideSt (initLoopSt envNotify))
      ⟨⟨2⟩, Option.none⟩
      [Action.runAct 0 ⟨2⟩ Option.none true, Action.snap 7,
        Action.readState exRunHookSt, Action.guardAct GuardCall.unlock Option.none,
        Action.decideOp 1 ⟨⟨0⟩, Option.some ErrVal.errNoOperation⟩]
      (Option.some ErrVal.errNoOperation)
      ⟨exRunHookSt, 7, true, 2, 1, 2, 0, 0⟩ (by decide)).2.2) 0 ⟨2⟩ Option.none hm⟩

/-- C3 counterexample: with the abort signal set from the start and a
change notification simultaneously pending, Go's select may take the
change case, so the loop proceeds to start a new operation instead of
terminating with `ErrLoopAborted`. -/
theorem c3_abort_not_prioritized :
    envC3.abortSet 0 = true ∧ envC3.abortSet 1 = true ∧
    envC3.changeReady 0 = true ∧
    (Loop envC3 3).2 ≠ LoopRes.ret (Option.some ErrVal.errLoopAborted) ∧
    Action.waitTaken Branch.change ∈ (Loop envC3 3).1 ∧
    Action.runAct 0 ⟨1⟩ Option.none false ∈ (Loop envC3 3).1 := by
  refine ⟨rfl, rfl, rfl, ?_, ?_, ?_⟩ <;> decide

/-- C3 amended: once the abort signal is set, the loop terminates
with `ErrLoopAborted` — with no further operation started and no
action after the select — whenever the blocking select resolves to
the abort case, which is guaranteed when no change notification and
no `fire` wakeup is simultaneously ready; a simultaneously ready
competing case may be selected instead. -/
theorem c3_abort_when_selected :
    (∀ env st, env.abortSet st.si = true → env.changeReady st.si = false →
      st.fire = false → selectPick env st = Option.some Branch.abort) ∧
    (∀ env n st t e st2,
      innerLoop env n (afterDecideSt st) (topDecide env st) = (t, InnerRes.exitRes e st2) →
      (dispatchStep (idleResult env st2.ii) e).res = DispatchRes.proceed →
      selectPick env (postDispatchSt env st2 e) = Option.some Branch.abort →
      outerBody env n st =
        (topActs env st ++ t ++ (dispatchStep (idleResult env st2.ii) e).acts ++
          [Action.waitTaken Branch.abort],
          BodyRes.ret (Option.some ErrVal.errLoopAborted))) ∧
    (∀ env m st0 t fe, outerBody env m st0 = (t, BodyRes.ret fe) →
      outerLoop env (Nat.succ m) st0 = (t, LoopRes.ret fe)) := by
  exact ⟨selectPick_abort_only, outerBody_select_abort, outerLoop_body_ret⟩

/-- Witness for C3 amended: with abort set and nothing else ready the
select takes the abort case and the iteration returns
`ErrLoopAborted` right after invoking the idle callback. -/
theorem c3_abort_when_selected_witness :
    selectPick envIdle ⟨exRunHookSt, 0, false, 1, 0, 1, 1, 0⟩ =
      Option.some Branch.abort ∧
    outerBody envIdle 1 (initLoopSt envIdle) =
      (topActs envIdle (initLoopSt envIdle) ++ [] ++
        (dispatchStep (idleResult envIdle 0) (Option.some ErrVal.errNoOperation)).acts ++
        [Action.waitTaken Branch.abort],
        BodyRes.ret (Option.some ErrVal.errLoopAborted)) :=
  ⟨c3_abort_when_selected.1 envIdle ⟨exRunHookSt, 0, false, 1, 0, 1, 1, 0⟩ rfl rfl rfl,
   c3_abort_when_selected.2.1 envIdle 1 (initLoopSt envIdle) []
     (Option.some ErrVal.errNoOperation) (afterDecideSt (initLoopSt envIdle))
     rfl rfl (by decide)⟩

end JujuResolver
